import Mathlib

/-!
Shallow embedding of the dgit-daemon core (Rust) for specification checking.

Source files embedded:
- crates/daemon/src/handlers/git_info_refs.rs
- crates/daemon/src/handlers/git_upload_pack.rs
- crates/daemon/src/handlers/git_receive_pack.rs
- crates/daemon/src/handlers/create_repo.rs
- crates/daemon/src/state.rs
- crates/onchain/src/contract_interaction.rs
- crates/onchain/src/ipfs.rs

Modelling conventions:
- Byte strings (`Vec<u8>` ref data, request bodies) are modelled as Lean
  `String`s of their decoded characters; no claim in scope turns on UTF-8
  validity, and the hash/ref payloads involved are ASCII.
- Network and subprocess effects are passed in as explicit parameters
  (oracles indexed by attempt number, outcome values), so each handler
  slice is a pure function of the ledger snapshot and its environment.
-/

/-- Character-list test that `p` is a leading segment of the second list,
mirroring Rust `str::starts_with`. -/
def chIsPre : List Char → List Char → Bool
  | [], _ => true
  | _ :: _, [] => false
  | a :: as, b :: bs => a == b && chIsPre as bs

/-- Character-list substring test, mirroring Rust `str::contains`. -/
def chSubOf (needle : List Char) : List Char → Bool
  | [] => needle.isEmpty
  | c :: rest => chIsPre needle (c :: rest) || chSubOf needle rest

/-- String wrapper for `chIsPre`: `strStarts s p` is Rust `s.starts_with(p)`. -/
def strStarts (s p : String) : Bool := chIsPre p.data s.data

/-- String wrapper for `chSubOf`: `strContains s sub` is Rust `s.contains(sub)`. -/
def strContains (s sub : String) : Bool := chSubOf sub.data s.data

/-- Ledger ref record, mirroring `Ref` in contract_interaction.rs
(`name: String, data: Vec<u8>, is_active: bool, pusher: Address`);
`data` is the ref target bytes, modelled as a decoded string, and the
pusher address is modelled as a string. -/
structure LedgerRef where
  name : String
  data : String
  is_active : Bool
  pusher : String
  deriving Repr, DecidableEq

/-- Ledger object record, mirroring `Object` in contract_interaction.rs
(`hash: String, ipfs_url: Vec<u8>, pusher: Address`). -/
structure LedgerObject where
  hash : String
  ipfs_url : String
  pusher : String
  deriving Repr, DecidableEq

/-- Ref materialization loop of `handle_info_refs`
(git_info_refs.rs lines 89-112): for each ref in ledger order, active refs
are validated (decoded target length exactly 40 and name starting with
`refs/`) and then written as a file `(path, contents)`; a violation aborts
with the `Malformed ref` error; inactive refs are skipped. -/
def infoRefsWriteRefs : List LedgerRef → Except String (List (String × String))
  | [] => .ok []
  | r :: rs =>
    if r.is_active then
      if r.data.length != 40 || !(strStarts r.name "refs/") then
        .error ("Malformed ref " ++ r.name ++ ": " ++ r.data)
      else
        match infoRefsWriteRefs rs with
        | .error e => .error e
        | .ok rest => .ok ((r.name, r.data ++ "\n") :: rest)
    else infoRefsWriteRefs rs

/-- Ref materialization loop of `handle_upload_pack`
(git_upload_pack.rs lines 81-95): active refs are written with no
validation at all; inactive refs are skipped. Result is the list of
written ref files `(path, contents)`. -/
def uploadPackWriteRefs : List LedgerRef → List (String × String)
  | [] => []
  | r :: rs =>
    if r.is_active then (r.name, r.data ++ "\n") :: uploadPackWriteRefs rs
    else uploadPackWriteRefs rs

/-- Ref materialization loop of `handle_receive_pack`
(git_receive_pack.rs lines 72-84): every ref of the ledger is written,
with no `is_active` check and no validation. Result is the list of
written ref files `(path, contents)`. -/
def receivePackWriteRefs : List LedgerRef → List (String × String)
  | [] => []
  | r :: rs => (r.name, r.data ++ "\n") :: receivePackWriteRefs rs

/-- Split a character list at newline characters, keeping empty segments
(the list-level core of Rust `str::lines`). -/
def chSplitNl : List Char → List (List Char)
  | [] => [[]]
  | c :: rest =>
    if c == '\n' then [] :: chSplitNl rest
    else
      match chSplitNl rest with
      | [] => [[c]]
      | l :: ls => (c :: l) :: ls

/-- Drop one trailing carriage return, as Rust `str::lines` does per line. -/
def chStripCr (l : List Char) : List Char :=
  if l.getLast? == some '\r' then l.dropLast else l

/-- Rust `str::lines`: split on `\n`, strip one trailing `\r` per line, and
drop the final empty segment produced by a trailing newline (or by the
empty string). -/
def rustLines (s : String) : List String :=
  let ps := (chSplitNl s.data).map chStripCr
  let ps := if (ps.getLast? == some []) then ps.dropLast else ps
  ps.map List.asString

/-- Rust `str::split_whitespace`: split at whitespace, discarding empty
segments. -/
def rustSplitWs (s : String) : List String :=
  ((s.data.splitOnP Char.isWhitespace).filter (fun l => !l.isEmpty)).map List.asString

/-- Embeds `parse_wanted_objects` (git_upload_pack.rs lines 173-187):
collect, over the body's lines, the second whitespace-separated token of
every line that starts with `want `. -/
def parse_wanted_objects (body : String) : List String :=
  (rustLines body).filterMap fun line =>
    if strStarts line "want " then
      let parts := rustSplitWs line
      if parts.length ≥ 2 then parts.get? 1 else none
    else none

/-- Embeds the want-verification loop of `handle_upload_pack`
(git_upload_pack.rs lines 103-120): each wanted hash is looked up through
the ledger's `is_object_exist`; a hash reported absent aborts with the
`not our ref` error, a lookup error aborts with the lookup error message.
The oracle `exist` stands for `contract.is_object_exist`. -/
def checkWanted (exist : String → Except String Bool) : List String → Except String Unit
  | [] => .ok ()
  | h :: hs =>
    match exist h with
    | .ok true => checkWanted exist hs
    | .ok false => .error ("upload-pack: not our ref " ++ h)
    | .error e => .error ("Error checking commit existence: " ++ e)

/-- Outcome of the upload-pack handler up to the point where the external
`git upload-pack` subprocess would be spawned. -/
inductive UPOutcome where
  | errBeforeSpawn (msg : String)
  | spawned (stdinBytes : String)
  deriving Repr, DecidableEq

/-- Embeds `handle_upload_pack` (git_upload_pack.rs lines 36-144) up to the
subprocess spawn, in source order: the empty-ledger check (`Repository has
no refs`, line 64), ref materialization, body parsing and want
verification (lines 100-120), then object downloads (lines 122-134,
abstracted as one aggregate result `downloads`), and finally the spawn of
`git upload-pack --stateless-rpc` with the request body on stdin. -/
def uploadPackUntilSpawn (refs : List LedgerRef)
    (exist : String → Except String Bool)
    (downloads : Except String Unit)
    (body : String) : UPOutcome :=
  if refs.isEmpty then .errBeforeSpawn "Repository has no refs"
  else
    match checkWanted exist (parse_wanted_objects body) with
    | .error m => .errBeforeSpawn m
    | .ok _ =>
      match downloads with
      | .error m => .errBeforeSpawn m
      | .ok _ => .spawned body

/-- Association-list lookup, mirroring `HashMap::get` on the registry map
of state.rs (`contracts: HashMap<String, ContractInteraction>`); the
handle type is abstract. -/
def mapGet {H : Type} : List (String × H) → String → Option H
  | [], _ => none
  | (k, v) :: rest, key => if k == key then some v else mapGet rest key

/-- Association-list insert with `HashMap::insert` semantics: an existing
binding for the key is replaced, otherwise the binding is appended. -/
def mapPut {H : Type} : List (String × H) → String → H → List (String × H)
  | [], key, c => [(key, c)]
  | (k, v) :: rest, key, c =>
    if k == key then (key, c) :: rest else (k, v) :: mapPut rest key c

/-- Embeds `ContractState::get_contract` (state.rs lines 32-35). -/
def get_contract {H : Type} (m : List (String × H)) (repo : String) : Option H :=
  mapGet m repo

/-- Embeds `ContractState::insert_contract` (state.rs lines 37-40): an
unconditional `HashMap::insert`, returning nothing. -/
def insert_contract {H : Type} (m : List (String × H)) (repo : String) (c : H) :
    List (String × H) :=
  mapPut m repo c

/-- Embeds `handle_create_repo` (create_repo.rs lines 24-37): look up the
name; if a contract is present fail with `Repository already exists`
leaving the registry untouched, otherwise deploy (the deployed handle is
passed in as `deployed`) and insert it. Returns the handler result paired
with the registry state after the call. -/
def handle_create_repo {H : Type} (m : List (String × H)) (repo : String)
    (deployed : H) : Except String H × List (String × H) :=
  if (get_contract m repo).isSome then (.error "Repository already exists", m)
  else (.ok deployed, insert_contract m repo deployed)

/-- Settlement-receipt poll outcome for one accepted ledger transaction,
mirroring the receipt match in contract_interaction.rs (lines 292-309 and
368-386): `Ok(Some)` with status 1, `Ok(Some)` with another status,
`Ok(None)`, or `Err`. -/
inductive ReceiptOutcome where
  | confirmedSuccess
  | confirmedFailure
  | notAvailable
  | fetchFailed (e : String)
  deriving Repr, DecidableEq

/-- Outcome of one ledger submission attempt: the transaction was accepted
(with its receipt-poll outcome) or the submission itself failed with an
error message. -/
inductive SubmitOutcome where
  | accepted (r : ReceiptOutcome)
  | rejected (e : String)
  deriving Repr, DecidableEq

/-- Recoverable-error classification of contract_interaction.rs
(lines 314-317 and 391-394): the error text contains `nonce too low`,
`gas price too low`, or `replacement transaction underpriced`. -/
def recoverableMsg (e : String) : Bool :=
  strContains e "nonce too low" ||
  strContains e "gas price too low" ||
  strContains e "replacement transaction underpriced"

/-- An attempt outcome on which the write loop returns success: the
transaction is accepted and its receipt either confirms success or is not
yet available. -/
def attemptSucceeds : SubmitOutcome → Bool
  | .accepted .confirmedSuccess => true
  | .accepted .notAvailable => true
  | _ => false

/-- The shared retry loop of `add_objects` and `add_refs`
(contract_interaction.rs lines 273-328 and 348-405), with the chain's
response to attempt number `r` (0-based) given by the oracle `att`.
`fuel` is the number of loop iterations left (3 at entry); the final
iteration is entered with one unit of fuel, matching
`retry == max_retries - 1`. An accepted
transaction returns success on a success receipt or a missing receipt and
otherwise falls through to the next iteration; a rejected submission with
a recoverable message falls through; a non-recoverable rejection on the
final iteration returns `opFail ++ e`; exhausting the loop returns
`opExhaust`. -/
def ledgerWriteLoop (att : Nat → SubmitOutcome) (opFail opExhaust : String) :
    Nat → Nat → Except String Unit
  | _, 0 => .error opExhaust
  | r, fuel + 1 =>
    match att r with
    | .accepted .confirmedSuccess => .ok ()
    | .accepted .notAvailable => .ok ()
    | .accepted .confirmedFailure => ledgerWriteLoop att opFail opExhaust (r + 1) fuel
    | .accepted (.fetchFailed _) => ledgerWriteLoop att opFail opExhaust (r + 1) fuel
    | .rejected e =>
      if recoverableMsg e then ledgerWriteLoop att opFail opExhaust (r + 1) fuel
      else if fuel == 0 then .error (opFail ++ e)
      else ledgerWriteLoop att opFail opExhaust (r + 1) fuel

/-- Embeds `ContractInteraction::add_objects` (contract_interaction.rs
lines 257-329): the batch-shape precondition (`Invalid objects data`) then
the 3-attempt write loop with the `add_objects` error strings. -/
def add_objects (hashes : List String) (ipfs_urls : List String)
    (att : Nat → SubmitOutcome) : Except String Unit :=
  if hashes.isEmpty || hashes.length != ipfs_urls.length then
    .error "Invalid objects data: mismatched lengths"
  else
    ledgerWriteLoop att "Failed to add objects: "
      "Failed to add objects after 3 retries" 0 3

/-- Embeds `ContractInteraction::add_refs` (contract_interaction.rs
lines 332-406): the batch-shape precondition (`Invalid refs data`) then
the 3-attempt write loop with the `add_refs` error strings. -/
def add_refs (references : List String) (data : List String)
    (att : Nat → SubmitOutcome) : Except String Unit :=
  if references.isEmpty || references.length != data.length then
    .error "Invalid refs data: mismatched lengths"
  else
    ledgerWriteLoop att "Failed to add refs: "
      "Failed to add refs after 3 retries" 0 3

/-- Embeds the per-ref verification loop of `handle_receive_pack`
(git_receive_pack.rs lines 246-261): for the `i`-th submitted ref name the
ledger is re-read (`contract.get_refs()`, modelled by the snapshot oracle
`getRefsAt i`) and a ref with that exact name and `is_active = true` must
be present, else the loop aborts with the verification error. -/
def verifyStoredRefs (getRefsAt : Nat → List LedgerRef) :
    Nat → List String → Except String Unit
  | _, [] => .ok ()
  | i, n :: ns =>
    if (getRefsAt i).any (fun r => r.name == n && r.is_active) then
      verifyStoredRefs getRefsAt (i + 1) ns
    else .error ("Failed to verify ref was stored in blockchain: " ++ n)

/-- Embeds the ref-persistence tail of `handle_receive_pack`
(git_receive_pack.rs lines 236-265): when no refs were harvested the
subprocess response is returned as-is; otherwise `add_refs` runs
(aggregate result `addRefsResult`), a failure is wrapped in the
`Failed to store refs in blockchain` error, and on success every
submitted name is verified against re-read ledger snapshots before the
response is returned. -/
def receivePackPersistRefs (updated_refs : List String)
    (addRefsResult : Except String Unit)
    (getRefsAt : Nat → List LedgerRef)
    (response : String) : Except String String :=
  if updated_refs.isEmpty then .ok response
  else
    match addRefsResult with
    | .error e => .error ("Failed to store refs in blockchain: " ++ e)
    | .ok _ =>
      match verifyStoredRefs getRefsAt 0 updated_refs with
      | .error e => .error e
      | .ok _ => .ok response

/-- HTTP outcome of one retrieval request in ipfs.rs: a response with a
status code and readable body, a response whose body read failed, or a
request/connection error. -/
inductive HttpResult where
  | response (status : Nat) (body : String)
  | bodyUnreadable (status : Nat)
  | reqFailed (e : String)
  deriving Repr, DecidableEq

/-- Reqwest `StatusCode::is_success`: 2xx. -/
def statusIsSuccess (s : Nat) : Bool := 200 ≤ s && s ≤ 299

/-- Content obtained from one retrieval request, mirroring the per-strategy
match blocks of `download_from_ipfs` (ipfs.rs lines 230-252, 275-297,
321-343): a 2xx response with readable body yields its bytes, anything
else is a miss (`None`). -/
def fetchBody : HttpResult → Option String
  | .response s b => if statusIsSuccess s then some b else none
  | .bodyUnreadable _ => none
  | .reqFailed _ => none

/-- The three retrieval attempts one download round makes, in source
order: the local block API, the local cat API, and the public gateway. -/
structure RoundEnv where
  block : HttpResult
  cat : HttpResult
  gateway : HttpResult
  deriving Repr, DecidableEq

/-- One round of `download_from_ipfs` (ipfs.rs lines 227-362): try the
block fetch, then the cat fetch, then — only when the configured gateway
prefix string is nonempty — the gateway fetch; the first fetch yielding
content wins and its bytes are the content written to the destination
file. `none` means the round missed entirely. -/
def tryStrategies (gatewayPre : String) (env : RoundEnv) : Option String :=
  match fetchBody env.block with
  | some c => some c
  | none =>
    match fetchBody env.cat with
    | some c => some c
    | none =>
      if gatewayPre.isEmpty then none else fetchBody env.gateway

/-- Backoff slept at the top of attempt `a` (1-based) of
`download_from_ipfs` (ipfs.rs lines 221-225): nothing before the first
attempt, `1000 * 2^(a-2)` ms before later ones. -/
def downloadBackoffMs (a : Nat) : Nat :=
  if a ≤ 1 then 0 else 1000 * 2 ^ (a - 2)

/-- Total backoff slept when the download finishes during attempt `a`. -/
def totalBackoffMs : Nat → Nat
  | 0 => 0
  | a + 1 => totalBackoffMs a + downloadBackoffMs (a + 1)

/-- The attempt loop of `download_from_ipfs` (ipfs.rs lines 218-366), with
the network outcomes of attempt `a` given by the oracle `rounds a`
(1-based). Returns the downloaded content and the attempt number that
produced it, or the final `Failed to download` error. -/
def downloadLoop (gatewayPre : String) (rounds : Nat → RoundEnv) :
    Nat → Nat → Except String (String × Nat)
  | _, 0 => .error "Failed to download from IPFS after all attempts"
  | a, fuel + 1 =>
    match tryStrategies gatewayPre (rounds a) with
    | some c => .ok (c, a)
    | none => downloadLoop gatewayPre rounds (a + 1) fuel

/-- Embeds `download_from_ipfs` (ipfs.rs lines 197-367): up to 3 rounds of
the three-strategy retrieval, starting at attempt 1. -/
def download_from_ipfs (gatewayPre : String) (rounds : Nat → RoundEnv) :
    Except String (String × Nat) :=
  downloadLoop gatewayPre rounds 1 3

/-- Format of Rust `format!("{:04x}", n)`: lowercase hex digits of `n`,
zero-padded on the left to at least four characters. -/
def formatHex04 (n : Nat) : String :=
  let ds := Nat.toDigits 16 n
  ⟨List.replicate (4 - ds.length) '0' ++ ds⟩

/-- Embeds the hand-framed advertisement assembly of `handle_info_refs`
(git_info_refs.rs lines 147-157): the pkt-line header over
`# service=<S>\n` (length = 4 + announcement length, as `{:04x}`), the
announcement, the flush marker `0000`, then the subprocess stdout. -/
def infoRefsFrame (service : String) (stdout : String) : String :=
  let ann := "# service=" ++ service ++ "\n"
  formatHex04 (4 + ann.length) ++ ann ++ "0000" ++ stdout

/-- Embeds `handle_info_refs` (git_info_refs.rs lines 47-167) as a
function of the ledger snapshot, the requested service, and the stdout of
the `--advertise-refs` subprocess: materialize the refs (there is no
empty-ledger check on this path), then for the two known services return
the framed advertisement, otherwise the `Unknown service` error. -/
def handle_info_refs (refs : List LedgerRef) (service : String)
    (stdout : String) : Except String String :=
  match infoRefsWriteRefs refs with
  | .error e => .error e
  | .ok _ =>
    if service == "git-upload-pack" || service == "git-receive-pack" then
      .ok (infoRefsFrame service stdout)
    else .error ("Unknown service: " ++ service)

/-- Filesystem path model for the `PathBuf` arithmetic of the handlers: an
absoluteness flag plus a component list. `tempdir()` paths are absolute. -/
structure MPath where
  absolute : Bool
  comps : List String
  deriving Repr, DecidableEq

/-- Rust `Path::join` with a path argument: an absolute argument replaces
the base entirely, a relative one is appended. -/
def pathJoin (p q : MPath) : MPath :=
  if q.absolute then q else ⟨p.absolute, p.comps ++ q.comps⟩

/-- Rust `Path::join` with a single plain component. -/
def pathJoinC (p : MPath) (s : String) : MPath :=
  pathJoin p ⟨false, [s]⟩

/-- Embeds `get_object_path` (git_upload_pack.rs lines 189-197): for a
hash shorter than 2 characters, `repo_path/objects/hash`; otherwise
`repo_path/objects/hash[0..2]/hash[2..]`. -/
def get_object_path (repo_path : MPath) (hash : String) : MPath :=
  if hash.length < 2 then pathJoinC (pathJoinC repo_path "objects") hash
  else
    let dir := ⟨hash.data.take 2⟩
    let file : String := ⟨hash.data.drop 2⟩
    pathJoinC (pathJoinC (pathJoinC repo_path "objects") dir) file

/-- Destination path `handle_upload_pack` downloads an object to
(git_upload_pack.rs lines 125-133): `objects_dir.join(object_path)` where
`objects_dir = temp_path/objects` and
`object_path = get_object_path(temp_path, hash)`. -/
def uploadPackObjectDest (temp_path : MPath) (hash : String) : MPath :=
  pathJoin (pathJoinC temp_path "objects") (get_object_path temp_path hash)

/-- Destination path `handle_receive_pack` downloads an object to
(git_receive_pack.rs lines 86-96), computed identically to the
upload-pack one. -/
def receivePackObjectDest (temp_path : MPath) (hash : String) : MPath :=
  pathJoin (pathJoinC temp_path "objects") (get_object_path temp_path hash)

/-- One step of the subprocess interaction performed by the two stateless
RPC handlers; `writeAllStdin` is the completed write of its whole
argument. -/
inductive PumpEvent where
  | spawnChild
  | writeAllStdin (bytes : String)
  | readAllStdout
  | waitChild
  | readAllStderr
  deriving Repr, DecidableEq

/-- Event order of `handle_upload_pack` around the `git upload-pack`
subprocess (git_upload_pack.rs lines 144-166): spawn; await writing the
whole body to stdin; then read stdout to end; then wait for exit; stderr
is read only when the exit status is a failure. -/
def uploadPackPumpTrace (body : String) (exitOk : Bool) : List PumpEvent :=
  [.spawnChild, .writeAllStdin body, .readAllStdout, .waitChild]
    ++ (if exitOk then [] else [.readAllStderr])

/-- Event order of `handle_receive_pack` around the `git receive-pack`
subprocess (git_receive_pack.rs lines 110-130), identical to the
upload-pack one. -/
def receivePackPumpTrace (body : String) (exitOk : Bool) : List PumpEvent :=
  [.spawnChild, .writeAllStdin body, .readAllStdout, .waitChild]
    ++ (if exitOk then [] else [.readAllStderr])

/-- Index (if any) of the first stdout read in a pump trace. -/
def firstReadIdx (t : List PumpEvent) : Option Nat :=
  t.indexOf? .readAllStdout

/-- Index (if any) of the completed whole-body stdin write in a trace. -/
def writeIdx (body : String) (t : List PumpEvent) : Option Nat :=
  t.indexOf? (.writeAllStdin body)

/-! Helper lemmas about the ref-materialization loops. -/

theorem uploadPack_write_from_active (refs : List LedgerRef) :
    ∀ f ∈ uploadPackWriteRefs refs,
      ∃ r ∈ refs, r.is_active = true ∧ f = (r.name, r.data ++ "\n") := by
  induction refs with
  | nil => simp [uploadPackWriteRefs]
  | cons r rs ih =>
    intro f hf
    rw [uploadPackWriteRefs] at hf
    by_cases ha : r.is_active = true
    · simp only [ha, if_true] at hf
      rcases List.mem_cons.mp hf with h | h
      · exact ⟨r, List.mem_cons_self r rs, ha, h⟩
      · rcases ih f h with ⟨s, hs, hact, hef⟩
        exact ⟨s, List.mem_cons_of_mem r hs, hact, hef⟩
    · simp only [ha, if_false] at hf
      rcases ih f hf with ⟨s, hs, hact, hef⟩
      exact ⟨s, List.mem_cons_of_mem r hs, hact, hef⟩

theorem infoRefs_write_from_active (refs : List LedgerRef) :
    ∀ out, infoRefsWriteRefs refs = .ok out →
      ∀ f ∈ out, ∃ r ∈ refs, r.is_active = true ∧ f = (r.name, r.data ++ "\n") := by
  induction refs with
  | nil =>
    intro out hok
    rw [infoRefsWriteRefs] at hok
    cases hok
    simp
  | cons r rs ih =>
    intro out hok
    rw [infoRefsWriteRefs] at hok
    by_cases ha : r.is_active = true
    · simp only [ha, if_true] at hok
      by_cases hv : (r.data.length != 40 || !strStarts r.name "refs/") = true
      · simp only [hv, if_true] at hok
        cases hok
      · simp only [hv, if_false] at hok
        cases hrec : infoRefsWriteRefs rs with
        | error e => rw [hrec] at hok; cases hok
        | ok rest =>
          rw [hrec] at hok
          cases hok
          intro f hf
          rcases List.mem_cons.mp hf with h | h
          · exact ⟨r, List.mem_cons_self r rs, ha, h⟩
          · rcases ih rest hrec f h with ⟨s, hs, hact, hef⟩
            exact ⟨s, List.mem_cons_of_mem r hs, hact, hef⟩
    · simp only [ha, if_false] at hok
      intro f hf
      rcases ih out hok f hf with ⟨s, hs, hact, hef⟩
      exact ⟨s, List.mem_cons_of_mem r hs, hact, hef⟩

theorem uploadPack_writes_every_active (refs : List LedgerRef) (r : LedgerRef)
    (hr : r ∈ refs) (ha : r.is_active = true) :
    (r.name, r.data ++ "\n") ∈ uploadPackWriteRefs refs := by
  induction refs with
  | nil => cases hr
  | cons q rs ih =>
    rw [uploadPackWriteRefs]
    rcases List.mem_cons.mp hr with h | h
    · subst h
      simp only [ha, if_true]
      exact List.mem_cons_self _ _
    · by_cases hq : q.is_active = true
      · simp only [hq, if_true]
        exact List.mem_cons_of_mem _ (ih h)
      · simp only [hq, if_false]
        exact ih h

theorem receivePack_writes_every (refs : List LedgerRef) (r : LedgerRef)
    (hr : r ∈ refs) :
    (r.name, r.data ++ "\n") ∈ receivePackWriteRefs refs := by
  induction refs with
  | nil => cases hr
  | cons q rs ih =>
    rw [receivePackWriteRefs]
    rcases List.mem_cons.mp hr with h | h
    · subst h
      exact List.mem_cons_self _ _
    · exact List.mem_cons_of_mem _ (ih h)

theorem infoRefs_ok_iff (refs : List LedgerRef) :
    (infoRefsWriteRefs refs).isOk = true ↔
      ∀ r ∈ refs, r.is_active = true →
        r.data.length = 40 ∧ strStarts r.name "refs/" = true := by
  induction refs with
  | nil => simp [infoRefsWriteRefs, Except.isOk, Except.toBool]
  | cons r rs ih =>
    rw [infoRefsWriteRefs]
    by_cases ha : r.is_active = true
    · simp only [ha, if_true]
      by_cases hv : (r.data.length != 40 || !strStarts r.name "refs/") = true
      · simp only [hv, if_true]
        constructor
        · intro h; cases h
        · intro hall
          rcases Bool.or_eq_true_iff.mp hv with hbad | hbad
          · exact absurd (hall r (List.mem_cons_self r rs) ha).1 (bne_iff_ne.mp hbad)
          · exact absurd (hall r (List.mem_cons_self r rs) ha).2
              (Bool.not_eq_true _ ▸ Bool.not_eq_true' (strStarts r.name "refs/") ▸ hbad)
      · have hgood : r.data.length = 40 ∧ strStarts r.name "refs/" = true := by
          rcases Bool.or_eq_false_iff.mp (Bool.not_eq_true _ |>.mp hv) with ⟨h1, h2⟩
          exact ⟨by simpa [bne] using h1, by simpa using h2⟩
        simp only [hv, if_false]
        cases hrec : infoRefsWriteRefs rs with
        | error e =>
          have : (infoRefsWriteRefs rs).isOk = false := by rw [hrec]; rfl
          constructor
          · intro h; cases h
          · intro hall
            have : (infoRefsWriteRefs rs).isOk = true :=
              ih.mpr (fun q hq hqa => hall q (List.mem_cons_of_mem r hq) hqa)
            rw [hrec] at this; cases this
        | ok rest =>
          have hok : (infoRefsWriteRefs rs).isOk = true := by rw [hrec]; rfl
          constructor
          · intro _ q hq hqa
            rcases List.mem_cons.mp hq with h | h
            · subst h; exact hgood
            · exact (ih.mp hok) q h hqa
          · intro _; rfl
    · simp only [ha, if_false]
      constructor
      · intro h q hq hqa
        rcases List.mem_cons.mp hq with hh | hh
        · subst hh; exact absurd hqa ha
        · exact (ih.mp h) q hh hqa
      · intro hall
        exact ih.mpr (fun q hq hqa => hall q (List.mem_cons_of_mem r hq) hqa)

/-- C1 counterexample: the receive-pack handler writes a ref file for a
ref whose `active` flag is false, refuting the claim that no handler ever
materializes an inactive ref. -/
theorem C1_receive_pack_writes_inactive_ref :
    receivePackWriteRefs
        [⟨"refs/heads/dead", "aaaaaaaaaaaaaaaaaaaaaaaaaaaaaaaaaaaaaaaa", false, "p"⟩]
      = [("refs/heads/dead", "aaaaaaaaaaaaaaaaaaaaaaaaaaaaaaaaaaaaaaaa\n")] ∧
    (LedgerRef.mk "refs/heads/dead" "aaaaaaaaaaaaaaaaaaaaaaaaaaaaaaaaaaaaaaaa"
        false "p").is_active = false := by
  constructor
  · decide
  · rfl

/-- C1 (amended): the info/refs and upload-pack handlers write ref files
only for refs whose active flag is true, while the receive-pack handler
writes a ref file for every ledger ref, active or not. -/
theorem C1_only_active_refs_materialized (refs : List LedgerRef) :
    (∀ out, infoRefsWriteRefs refs = .ok out →
        ∀ f ∈ out, ∃ r ∈ refs, r.is_active = true ∧ f = (r.name, r.data ++ "\n")) ∧
    (∀ f ∈ uploadPackWriteRefs refs,
        ∃ r ∈ refs, r.is_active = true ∧ f = (r.name, r.data ++ "\n")) ∧
    (∀ r ∈ refs, (r.name, r.data ++ "\n") ∈ receivePackWriteRefs refs) :=
  ⟨infoRefs_write_from_active refs, uploadPack_write_from_active refs,
   fun r hr => receivePack_writes_every refs r hr⟩

/-- C1 witness: the amended theorem applied to a two-ref ledger with one
active and one inactive ref, at the file the upload-pack loop wrote. -/
theorem C1_only_active_refs_materialized_witness :
    ∃ r ∈ [LedgerRef.mk "refs/heads/m" "aa" true "p",
           LedgerRef.mk "refs/heads/d" "bb" false "p"],
      r.is_active = true ∧ ("refs/heads/m", "aa\n") = (r.name, r.data ++ "\n") :=
  (C1_only_active_refs_materialized
      [LedgerRef.mk "refs/heads/m" "aa" true "p",
       LedgerRef.mk "refs/heads/d" "bb" false "p"]).2.1
    ("refs/heads/m", "aa\n") (by decide)

/-- C3 counterexample: an active ref whose target is not 40 hex characters
is not rejected — upload-pack and receive-pack materialization write a ref
with a 2-character target without error, and info/refs materialization
accepts a 40-character target that is not hex at all. -/
theorem C3_malformed_ref_not_rejected :
    uploadPackWriteRefs [⟨"refs/heads/m", "zz", true, "p"⟩]
        = [("refs/heads/m", "zz\n")] ∧
    receivePackWriteRefs [⟨"refs/heads/m", "zz", true, "p"⟩]
        = [("refs/heads/m", "zz\n")] ∧
    infoRefsWriteRefs
        [⟨"refs/heads/m", "zzzzzzzzzzzzzzzzzzzzzzzzzzzzzzzzzzzzzzzz", true, "p"⟩]
      = .ok [("refs/heads/m", "zzzzzzzzzzzzzzzzzzzzzzzzzzzzzzzzzzzzzzzz\n")] := by
  refine ⟨by decide, by decide, rfl⟩

/-- C3 (amended): only the info/refs handler validates refs during
materialization, and its check is that the decoded target has length
exactly 40 (hexness is not checked) and the name starts with `refs/`; an
active ref violating either aborts info/refs materialization, while the
upload-pack and receive-pack handlers write their refs with no validation
at all. -/
theorem C3_validation_only_in_info_refs (refs : List LedgerRef) :
    ((infoRefsWriteRefs refs).isOk = true ↔
        ∀ r ∈ refs, r.is_active = true →
          r.data.length = 40 ∧ strStarts r.name "refs/" = true) ∧
    (∀ r ∈ refs, r.is_active = true →
        (r.name, r.data ++ "\n") ∈ uploadPackWriteRefs refs) ∧
    (∀ r ∈ refs, (r.name, r.data ++ "\n") ∈ receivePackWriteRefs refs) :=
  ⟨infoRefs_ok_iff refs,
   fun r hr ha => uploadPack_writes_every_active refs r hr ha,
   fun r hr => receivePack_writes_every refs r hr⟩

/-- C3 witness: the amended theorem applied to a one-ref ledger whose
active ref has a malformed 2-character target, showing upload-pack still
writes it. -/
theorem C3_validation_only_in_info_refs_witness :
    ("refs/heads/m", "zz\n")
      ∈ uploadPackWriteRefs [LedgerRef.mk "refs/heads/m" "zz" true "p"] :=
  (C3_validation_only_in_info_refs
      [LedgerRef.mk "refs/heads/m" "zz" true "p"]).2.1
    (LedgerRef.mk "refs/heads/m" "zz" true "p") (by decide) (by decide)

theorem checkWanted_ok_iff (exist : String → Except String Bool) (hs : List String) :
    checkWanted exist hs = .ok () ↔ ∀ h ∈ hs, exist h = .ok true := by
  induction hs with
  | nil => simp [checkWanted]
  | cons h t ih =>
    cases he : exist h with
    | error e =>
      rw [checkWanted, he]
      constructor
      · intro hbad; exact Except.noConfusion hbad
      · intro hall
        have hx := hall h (List.mem_cons_self h t)
        rw [he] at hx
        exact Except.noConfusion hx
    | ok b =>
      cases b with
      | false =>
        rw [checkWanted, he]
        constructor
        · intro hbad; exact Except.noConfusion hbad
        · intro hall
          have hx := hall h (List.mem_cons_self h t)
          rw [he] at hx
          cases hx
      | true =>
        rw [checkWanted, he]
        constructor
        · intro hok x hx
          rcases List.mem_cons.mp hx with hh | hh
          · subst hh; exact he
          · exact (ih.mp hok) x hh
        · intro hall
          exact ih.mpr (fun x hx => hall x (List.mem_cons_of_mem h hx))

theorem spawned_implies_checked (refs : List LedgerRef)
    (exist : String → Except String Bool) (dls : Except String Unit)
    (body b : String)
    (h : uploadPackUntilSpawn refs exist dls body = .spawned b) :
    b = body ∧ checkWanted exist (parse_wanted_objects body) = .ok () := by
  rw [uploadPackUntilSpawn.eq_def] at h
  by_cases hre : refs.isEmpty = true
  · rw [if_pos hre] at h
    exact UPOutcome.noConfusion h
  · rw [if_neg hre] at h
    cases hc : checkWanted exist (parse_wanted_objects body) with
    | error m =>
      rw [hc] at h
      exact UPOutcome.noConfusion h
    | ok u =>
      rw [hc] at h
      cases u
      cases dls with
      | error m => exact UPOutcome.noConfusion h
      | ok u2 =>
        cases u2
        have hb : body = b := by
          injection h
        constructor
        · exact hb.symm
        · rfl

/-- C2 counterexample: for the body
`0032want 0000000000000000000000000000000000000000\n0000` against a
repository with one ref and a ledger reporting every hash absent, the
handler does not fail with `not our ref` — no hash is extracted (the
pkt-line length prefix is glued to `want`), so the existence check never
runs and the `git upload-pack` subprocess is spawned. -/
theorem C2_scenario_reaches_spawn :
    parse_wanted_objects "0032want 0000000000000000000000000000000000000000\n0000" = [] ∧
    uploadPackUntilSpawn
        [⟨"refs/heads/m", "aaaaaaaaaaaaaaaaaaaaaaaaaaaaaaaaaaaaaaaa", true, "p"⟩]
        (fun _ => .ok false) (.ok ())
        "0032want 0000000000000000000000000000000000000000\n0000"
      = .spawned "0032want 0000000000000000000000000000000000000000\n0000" := by
  refine ⟨by decide, by decide⟩

/-- C2 (amended): hashes are extracted only from body lines that literally
begin with `want ` (so the scenario body, whose pkt-line length prefix is
glued to `want`, yields none and is not checked); every extracted hash is
verified through `isObjectExists` before the executable is invoked — the
subprocess is reached only when every extracted hash checks out, and an
extracted hash reported absent is fatal with the
`upload-pack: not our ref <hash>` error. -/
theorem C2_want_verification_gates_spawn :
    (∀ exist : String → Except String Bool, ∀ hs : List String,
        checkWanted exist hs = .ok () ↔ ∀ h ∈ hs, exist h = .ok true) ∧
    (∀ refs exist dls body b,
        uploadPackUntilSpawn refs exist dls body = .spawned b →
        b = body ∧ ∀ h ∈ parse_wanted_objects body, exist h = .ok true) ∧
    (∀ exist : String → Except String Bool, ∀ h hs, exist h = .ok false →
        checkWanted exist (h :: hs) = .error ("upload-pack: not our ref " ++ h)) := by
  refine ⟨checkWanted_ok_iff, ?_, ?_⟩
  · intro refs exist dls body b h
    rcases spawned_implies_checked refs exist dls body b h with ⟨hb, hc⟩
    exact ⟨hb, (checkWanted_ok_iff exist (parse_wanted_objects body)).mp hc⟩
  · intro exist h hs hfalse
    rw [checkWanted, hfalse]

/-- C2 witness: the amended theorem's miss clause applied to a concrete
absent hash. -/
theorem C2_want_verification_gates_spawn_witness :
    checkWanted (fun _ => Except.ok false) ["ab"]
      = .error ("upload-pack: not our ref " ++ "ab") :=
  C2_want_verification_gates_spawn.2.2 (fun _ => Except.ok false) "ab" [] rfl

theorem mapGet_mapPut_self {H : Type} (m : List (String × H)) (k : String) (c : H) :
    mapGet (mapPut m k c) k = some c := by
  induction m with
  | nil => simp [mapPut, mapGet]
  | cons p rest ih =>
    obtain ⟨k0, v0⟩ := p
    rw [mapPut]
    by_cases hk : (k0 == k) = true
    · rw [if_pos hk, mapGet, if_pos (by simp)]
    · rw [if_neg hk, mapGet, if_neg hk]
      exact ih

/-- C4 counterexample: the registry insert operation overwrites — starting
from a registry mapping `demo` to handle `1`, inserting handle `2` under
`demo` replaces the original mapping (and reports nothing), so an entry is
not left unchanged by a second insert. -/
theorem C4_insert_contract_overwrites :
    insert_contract [("demo", 1)] "demo" 2 = [("demo", 2)] ∧
    get_contract (insert_contract [("demo", 1)] "demo" 2) "demo" = some 2 ∧
    get_contract [("demo", 1)] "demo" = some 1 := by decide

/-- C4 (amended): `insert_contract` itself is an unconditional overwrite
with no already-exists report; the already-exists semantics live one level
up in `handle_create_repo`, which refuses with `Repository already
exists` and leaves the registry unchanged when the name is mapped, and
deploys and inserts only when the lookup comes back empty. -/
theorem C4_create_repo_checks_then_inserts (H : Type) (m : List (String × H))
    (repo : String) (c h : H) :
    (get_contract m repo = some h →
        handle_create_repo m repo c = (.error "Repository already exists", m)) ∧
    (get_contract m repo = none →
        handle_create_repo m repo c = (.ok c, insert_contract m repo c)) ∧
    get_contract (insert_contract m repo c) repo = some c := by
  refine ⟨?_, ?_, mapGet_mapPut_self m repo c⟩
  · intro hs
    rw [handle_create_repo, hs]
    rfl
  · intro hn
    rw [handle_create_repo, hn]
    rfl

/-- C4 witness: the amended theorem applied to a registry already mapping
`demo`, with a colliding insert of a fresh handle. -/
theorem C4_create_repo_checks_then_inserts_witness :
    handle_create_repo [("demo", 1)] "demo" 2
      = (.error "Repository already exists", [("demo", 1)]) :=
  (C4_create_repo_checks_then_inserts Nat [("demo", 1)] "demo" 2 1).1 (by decide)

theorem ledgerWriteLoop_step_ok (att : Nat → SubmitOutcome) (f x : String)
    (r fuel : Nat) (h : attemptSucceeds (att r) = true) :
    ledgerWriteLoop att f x r (fuel + 1) = .ok () := by
  cases ha : att r with
  | accepted rc =>
    cases rc with
    | confirmedSuccess => rw [ledgerWriteLoop, ha]
    | notAvailable => rw [ledgerWriteLoop, ha]
    | confirmedFailure => rw [ha] at h; simp [attemptSucceeds] at h
    | fetchFailed e => rw [ha] at h; simp [attemptSucceeds] at h
  | rejected e => rw [ha] at h; simp [attemptSucceeds] at h

theorem ledgerWriteLoop_step_receiptFailure (att : Nat → SubmitOutcome)
    (f x : String) (r fuel : Nat) (ha : att r = .accepted .confirmedFailure) :
    ledgerWriteLoop att f x r (fuel + 1) = ledgerWriteLoop att f x (r + 1) fuel := by
  rw [ledgerWriteLoop, ha]

theorem ledgerWriteLoop_step_receiptErr (att : Nat → SubmitOutcome)
    (f x : String) (r fuel : Nat) (e : String)
    (ha : att r = .accepted (.fetchFailed e)) :
    ledgerWriteLoop att f x r (fuel + 1) = ledgerWriteLoop att f x (r + 1) fuel := by
  rw [ledgerWriteLoop, ha]

theorem ledgerWriteLoop_step_rejected (att : Nat → SubmitOutcome)
    (f x : String) (r fuel : Nat) (e : String) (ha : att r = .rejected e) :
    ledgerWriteLoop att f x r (fuel + 1)
      = if recoverableMsg e = true then ledgerWriteLoop att f x (r + 1) fuel
        else if (fuel == 0) = true then .error (f ++ e)
        else ledgerWriteLoop att f x (r + 1) fuel := by
  rw [ledgerWriteLoop, ha]

theorem ledgerWriteLoop_error_of_all_fail (att : Nat → SubmitOutcome)
    (f x : String) :
    ∀ fuel r, (∀ i, i < fuel → attemptSucceeds (att (r + i)) = false) →
      ∃ m, ledgerWriteLoop att f x r fuel = .error m := by
  intro fuel
  induction fuel with
  | zero => intro r _; exact ⟨x, rfl⟩
  | succ n ih =>
    intro r hall
    have htail : ∀ i, i < n → attemptSucceeds (att (r + 1 + i)) = false := by
      intro i hi
      have := hall (i + 1) (by omega)
      rwa [show r + (i + 1) = r + 1 + i by omega] at this
    have h0 : attemptSucceeds (att r) = false := by
      have := hall 0 (by omega)
      rwa [Nat.add_zero] at this
    cases ha : att r with
    | accepted rc =>
      cases rc with
      | confirmedSuccess => rw [ha] at h0; simp [attemptSucceeds] at h0
      | notAvailable => rw [ha] at h0; simp [attemptSucceeds] at h0
      | confirmedFailure =>
        rcases ih (r + 1) htail with ⟨m, hm⟩
        exact ⟨m, by rw [ledgerWriteLoop_step_receiptFailure att f x r n ha]; exact hm⟩
      | fetchFailed e =>
        rcases ih (r + 1) htail with ⟨m, hm⟩
        exact ⟨m, by rw [ledgerWriteLoop_step_receiptErr att f x r n e ha]; exact hm⟩
    | rejected e =>
      by_cases hrec : recoverableMsg e = true
      · rcases ih (r + 1) htail with ⟨m, hm⟩
        exact ⟨m, by
          rw [ledgerWriteLoop_step_rejected att f x r n e ha, if_pos hrec]
          exact hm⟩
      · by_cases hn : n = 0
        · subst hn
          exact ⟨f ++ e, by
            rw [ledgerWriteLoop_step_rejected att f x r 0 e ha, if_neg hrec]
            rfl⟩
        · rcases ih (r + 1) htail with ⟨m, hm⟩
          refine ⟨m, ?_⟩
          rw [ledgerWriteLoop_step_rejected att f x r n e ha, if_neg hrec,
            if_neg (by simpa using hn)]
          exact hm

theorem ledgerWriteLoop_congr (att att2 : Nat → SubmitOutcome) (f x : String) :
    ∀ fuel r, (∀ i, i < fuel → att (r + i) = att2 (r + i)) →
      ledgerWriteLoop att f x r fuel = ledgerWriteLoop att2 f x r fuel := by
  intro fuel
  induction fuel with
  | zero => intro r _; rfl
  | succ n ih =>
    intro r hall
    have h0 : att r = att2 r := by
      have := hall 0 (by omega)
      rwa [Nat.add_zero] at this
    have htail : ∀ i, i < n → att (r + 1 + i) = att2 (r + 1 + i) := by
      intro i hi
      have := hall (i + 1) (by omega)
      rwa [show r + (i + 1) = r + 1 + i by omega] at this
    cases ha : att r with
    | accepted rc =>
      cases rc with
      | confirmedSuccess =>
        rw [ledgerWriteLoop_step_ok att f x r n (by rw [ha]; rfl),
          ledgerWriteLoop_step_ok att2 f x r n (by rw [← h0, ha]; rfl)]
      | notAvailable =>
        rw [ledgerWriteLoop_step_ok att f x r n (by rw [ha]; rfl),
          ledgerWriteLoop_step_ok att2 f x r n (by rw [← h0, ha]; rfl)]
      | confirmedFailure =>
        rw [ledgerWriteLoop_step_receiptFailure att f x r n ha,
          ledgerWriteLoop_step_receiptFailure att2 f x r n (h0 ▸ ha)]
        exact ih (r + 1) htail
      | fetchFailed e =>
        rw [ledgerWriteLoop_step_receiptErr att f x r n e ha,
          ledgerWriteLoop_step_receiptErr att2 f x r n e (h0 ▸ ha)]
        exact ih (r + 1) htail
    | rejected e =>
      rw [ledgerWriteLoop_step_rejected att f x r n e ha,
        ledgerWriteLoop_step_rejected att2 f x r n e (h0 ▸ ha)]
      by_cases hrec : recoverableMsg e = true
      · rw [if_pos hrec, if_pos hrec]
        exact ih (r + 1) htail
      · rw [if_neg hrec, if_neg hrec]
        by_cases hn : (n == 0) = true
        · rw [if_pos hn, if_pos hn]
        · rw [if_neg hn, if_neg hn]
          exact ih (r + 1) htail

theorem add_objects_eq_loop (hashes urls : List String) (att : Nat → SubmitOutcome)
    (hne : hashes ≠ []) (hlen : hashes.length = urls.length) :
    add_objects hashes urls att
      = ledgerWriteLoop att "Failed to add objects: "
          "Failed to add objects after 3 retries" 0 3 := by
  have h1 : hashes.isEmpty = false := by
    cases hashes with
    | nil => exact absurd rfl hne
    | cons a l => rfl
  have h2 : (hashes.length != urls.length) = false := by simp [hlen]
  simp [add_objects, h1, h2]

theorem add_refs_eq_loop (names rdata : List String) (att : Nat → SubmitOutcome)
    (hne : names ≠ []) (hlen : names.length = rdata.length) :
    add_refs names rdata att
      = ledgerWriteLoop att "Failed to add refs: "
          "Failed to add refs after 3 retries" 0 3 := by
  have h1 : names.isEmpty = false := by
    cases names with
    | nil => exact absurd rfl hne
    | cons a l => rfl
  have h2 : (names.length != rdata.length) = false := by simp [hlen]
  simp [add_refs, h1, h2]

theorem ledgerWriteLoop_two_recoverable_then_success (att : Nat → SubmitOutcome)
    (f x e0 e1 : String)
    (h0 : att 0 = .rejected e0) (hr0 : recoverableMsg e0 = true)
    (h1 : att 1 = .rejected e1) (hr1 : recoverableMsg e1 = true)
    (h2 : attemptSucceeds (att 2) = true) :
    ledgerWriteLoop att f x 0 3 = .ok () := by
  show ledgerWriteLoop att f x 0 (2 + 1) = .ok ()
  rw [ledgerWriteLoop_step_rejected att f x 0 2 e0 h0, if_pos hr0]
  show ledgerWriteLoop att f x 1 (1 + 1) = .ok ()
  rw [ledgerWriteLoop_step_rejected att f x 1 1 e1 h1, if_pos hr1]
  exact ledgerWriteLoop_step_ok att f x 2 0 h2

/-- C5: for a non-empty, equal-length batch, a ledger write whose first
two submissions are rejected with recoverable messages and whose third is
accepted with a success (or not-yet-available) receipt returns success;
when none of the three attempts reaches a success outcome the write
returns a fatal error; and for both `add_objects` and `add_refs` the
result depends only on the outcomes of attempts 0, 1 and 2 — exactly 3
attempts are made. -/
theorem C5_ledger_write_retry (hashes urls names rdata : List String)
    (att : Nat → SubmitOutcome) (e0 e1 : String)
    (hne : hashes ≠ []) (hlen : hashes.length = urls.length)
    (nne : names ≠ []) (nlen : names.length = rdata.length) :
    ((att 0 = .rejected e0 ∧ recoverableMsg e0 = true ∧
      att 1 = .rejected e1 ∧ recoverableMsg e1 = true ∧
      attemptSucceeds (att 2) = true) →
        add_objects hashes urls att = .ok () ∧
        add_refs names rdata att = .ok ()) ∧
    ((∀ i, i < 3 → attemptSucceeds (att i) = false) →
        (∃ m, add_objects hashes urls att = .error m) ∧
        ∃ m, add_refs names rdata att = .error m) ∧
    (∀ att2 : Nat → SubmitOutcome, (∀ i, i < 3 → att i = att2 i) →
        add_objects hashes urls att = add_objects hashes urls att2 ∧
        add_refs names rdata att = add_refs names rdata att2) := by
  refine ⟨?_, ?_, ?_⟩
  · rintro ⟨h0, hr0, h1, hr1, h2⟩
    constructor
    · rw [add_objects_eq_loop hashes urls att hne hlen]
      exact ledgerWriteLoop_two_recoverable_then_success att _ _ e0 e1 h0 hr0 h1 hr1 h2
    · rw [add_refs_eq_loop names rdata att nne nlen]
      exact ledgerWriteLoop_two_recoverable_then_success att _ _ e0 e1 h0 hr0 h1 hr1 h2
  · intro hall
    have hall0 : ∀ i, i < 3 → attemptSucceeds (att (0 + i)) = false := by
      intro i hi
      rw [Nat.zero_add]
      exact hall i hi
    constructor
    · rw [add_objects_eq_loop hashes urls att hne hlen]
      exact ledgerWriteLoop_error_of_all_fail att _ _ 3 0 hall0
    · rw [add_refs_eq_loop names rdata att nne nlen]
      exact ledgerWriteLoop_error_of_all_fail att _ _ 3 0 hall0
  · intro att2 heq
    have heq0 : ∀ i, i < 3 → att (0 + i) = att2 (0 + i) := by
      intro i hi
      rw [Nat.zero_add]
      exact heq i hi
    constructor
    · rw [add_objects_eq_loop hashes urls att hne hlen,
        add_objects_eq_loop hashes urls att2 hne hlen]
      exact ledgerWriteLoop_congr att att2 _ _ 3 0 heq0
    · rw [add_refs_eq_loop names rdata att nne nlen,
        add_refs_eq_loop names rdata att2 nne nlen]
      exact ledgerWriteLoop_congr att att2 _ _ 3 0 heq0

/-- C5 witness: the retry theorem applied to singleton batches and an
attempt oracle whose first two submissions fail with `nonce too low` and
whose third is confirmed successful. -/
theorem C5_ledger_write_retry_witness :
    add_objects ["h"] ["u"]
        (fun i => if i < 2 then SubmitOutcome.rejected "nonce too low"
                  else .accepted .confirmedSuccess) = .ok () ∧
    add_refs ["refs/heads/m"] ["t"]
        (fun i => if i < 2 then SubmitOutcome.rejected "nonce too low"
                  else .accepted .confirmedSuccess) = .ok () :=
  (C5_ledger_write_retry ["h"] ["u"] ["refs/heads/m"] ["t"]
      (fun i => if i < 2 then SubmitOutcome.rejected "nonce too low"
                else .accepted .confirmedSuccess)
      "nonce too low" "nonce too low"
      (by decide) (by decide) (by decide) (by decide)).1
    ⟨by decide, by decide, by decide, by decide, by decide⟩

theorem verifyStoredRefs_ok_iff (g : Nat → List LedgerRef) :
    ∀ ns : List String, ∀ i,
      verifyStoredRefs g i ns = .ok () ↔
        ∀ j name, ns.get? j = some name →
          ∃ r ∈ g (i + j), r.name = name ∧ r.is_active = true := by
  intro ns
  induction ns with
  | nil =>
    intro i
    constructor
    · intro _ j name hj
      simp [List.get?] at hj
    · intro _
      rfl
  | cons n t ih =>
    intro i
    rw [verifyStoredRefs]
    by_cases hfound : (g i).any (fun r => r.name == n && r.is_active) = true
    · rw [if_pos hfound, ih (i + 1)]
      constructor
      · intro hall j name hj
        cases j with
        | zero =>
          simp [List.get?] at hj
          subst hj
          rcases List.any_eq_true.mp hfound with ⟨r, hr, hp⟩
          have hp2 : r.name = n ∧ r.is_active = true := by simpa using hp
          exact ⟨r, by simpa using hr, hp2.1, hp2.2⟩
        | succ j0 =>
          have := hall j0 name (by simpa [List.get?] using hj)
          rwa [show i + 1 + j0 = i + (j0 + 1) by omega] at this
      · intro hall j name hj
        have := hall (j + 1) name (by simpa [List.get?] using hj)
        rwa [show i + (j + 1) = i + 1 + j by omega] at this
    · rw [if_neg hfound]
      constructor
      · intro hbad
        exact Except.noConfusion hbad
      · intro hall
        rcases hall 0 n (by simp [List.get?]) with ⟨r, hr, hn1, hact⟩
        refine absurd (List.any_eq_true.mpr ⟨r, ?_, ?_⟩) hfound
        · simpa using hr
        · simp [hn1, hact]

theorem verifyStoredRefs_shape (g : Nat → List LedgerRef) :
    ∀ ns : List String, ∀ i,
      verifyStoredRefs g i ns = .ok () ∨
      ∃ n ∈ ns, verifyStoredRefs g i ns
        = .error ("Failed to verify ref was stored in blockchain: " ++ n) := by
  intro ns
  induction ns with
  | nil => intro i; exact Or.inl rfl
  | cons n t ih =>
    intro i
    rw [verifyStoredRefs]
    by_cases hfound : (g i).any (fun r => r.name == n && r.is_active) = true
    · rw [if_pos hfound]
      rcases ih (i + 1) with hok | ⟨n1, hn1, herr⟩
      · exact Or.inl hok
      · exact Or.inr ⟨n1, List.mem_cons_of_mem n hn1, herr⟩
    · rw [if_neg hfound]
      exact Or.inr ⟨n, List.mem_cons_self n t, rfl⟩

/-- C6: after `add_refs` succeeds for a non-empty harvested ref list, the
receive-pack handler returns the subprocess response exactly when every
submitted name is found with `active = true` in the re-read ledger
snapshot for that name; when some submitted name is missing it instead
returns the fatal verification error naming a submitted ref. -/
theorem C6_receive_pack_verifies_stored_refs (updated : List String)
    (g : Nat → List LedgerRef) (resp : String) (hne : updated ≠ []) :
    (receivePackPersistRefs updated (.ok ()) g resp = .ok resp ↔
        ∀ j name, updated.get? j = some name →
          ∃ r ∈ g j, r.name = name ∧ r.is_active = true) ∧
    ((¬ ∀ j name, updated.get? j = some name →
          ∃ r ∈ g j, r.name = name ∧ r.is_active = true) →
        ∃ n ∈ updated,
          receivePackPersistRefs updated (.ok ()) g resp
            = .error ("Failed to verify ref was stored in blockchain: " ++ n)) := by
  have hemp : updated.isEmpty = false := by
    cases updated with
    | nil => exact absurd rfl hne
    | cons a l => rfl
  have hred : receivePackPersistRefs updated (.ok ()) g resp
      = match verifyStoredRefs g 0 updated with
        | .error e => .error e
        | .ok _ => .ok resp := by
    rw [receivePackPersistRefs, hemp]
    rfl
  constructor
  · rw [hred]
    cases hv : verifyStoredRefs g 0 updated with
    | error e =>
      constructor
      · intro hbad
        exact Except.noConfusion hbad
      · intro hall
        have : verifyStoredRefs g 0 updated = .ok () := by
          rw [verifyStoredRefs_ok_iff g updated 0]
          intro j name hj
          rw [Nat.zero_add]
          exact hall j name hj
        rw [hv] at this
        exact Except.noConfusion this
    | ok u =>
      cases u
      constructor
      · intro _ j name hj
        have := (verifyStoredRefs_ok_iff g updated 0).mp hv j name hj
        rwa [Nat.zero_add] at this
      · intro _
        rfl
  · intro hmiss
    rcases verifyStoredRefs_shape g updated 0 with hok | ⟨n, hn, herr⟩
    · refine absurd ?_ hmiss
      intro j name hj
      have := (verifyStoredRefs_ok_iff g updated 0).mp hok j name hj
      rwa [Nat.zero_add] at this
    · refine ⟨n, hn, ?_⟩
      rw [hred, herr]

/-- C6 witness: a one-ref push whose submitted name is found active in the
re-read ledger snapshot, returning the subprocess response. -/
theorem C6_receive_pack_verifies_stored_refs_witness :
    receivePackPersistRefs ["refs/heads/m"] (.ok ())
        (fun _ => [⟨"refs/heads/m", "t", true, "p"⟩]) "resp" = .ok "resp" :=
  (C6_receive_pack_verifies_stored_refs ["refs/heads/m"]
      (fun _ => [⟨"refs/heads/m", "t", true, "p"⟩]) "resp" (by decide)).1.mpr
    (by
      intro j name hj
      cases j with
      | zero =>
        simp [List.get?] at hj
        subst hj
        exact ⟨⟨"refs/heads/m", "t", true, "p"⟩, by simp, rfl, rfl⟩
      | succ j0 => simp [List.get?] at hj)

/-- C7: within one download round the strategies run in strict order — a
successful block fetch wins outright; on a block miss a successful cat
fetch wins; on both missing, the gateway is consulted exactly when the
gateway prefix is nonempty and is skipped when it is empty; and in the
spec scenario (block API HTTP 500, cat API HTTP 200 with body `X`) the
download returns content `X` during attempt 1, with zero backoff slept. -/
theorem C7_download_strategy_order (gp : String) (env : RoundEnv)
    (rounds : Nat → RoundEnv) (X eb : String) (s : Nat) :
    (∀ b, env.block = .response s b → statusIsSuccess s = true →
        tryStrategies gp env = some b) ∧
    (fetchBody env.block = none → env.cat = .response s X →
        statusIsSuccess s = true → tryStrategies gp env = some X) ∧
    (fetchBody env.block = none → fetchBody env.cat = none → gp ≠ "" →
        tryStrategies gp env = fetchBody env.gateway) ∧
    (fetchBody env.block = none → fetchBody env.cat = none →
        tryStrategies "" env = none) ∧
    ((rounds 1).block = .response 500 eb → (rounds 1).cat = .response 200 X →
        download_from_ipfs gp rounds = .ok (X, 1) ∧ totalBackoffMs 1 = 0) := by
  refine ⟨?_, ?_, ?_, ?_, ?_⟩
  · intro b hb hs
    have hfb : fetchBody env.block = some b := by
      rw [hb]
      simp [fetchBody, hs]
    simp [tryStrategies, hfb]
  · intro hbm hc hs
    have hfc : fetchBody env.cat = some X := by
      rw [hc]
      simp [fetchBody, hs]
    simp [tryStrategies, hbm, hfc]
  · intro hbm hcm hgw
    have hge : gp.isEmpty = false := by
      cases hgpe : gp.isEmpty with
      | false => rfl
      | true => exact absurd ((String.isEmpty_iff gp).mp hgpe) hgw
    simp [tryStrategies, hbm, hcm, hge]
  · intro hbm hcm
    have hem : ("" : String).isEmpty = true := rfl
    simp [tryStrategies, hbm, hcm, hem]
  · intro hb hc
    have hfb : fetchBody (rounds 1).block = none := by
      rw [hb]
      simp [fetchBody, statusIsSuccess]
    have hfc : fetchBody (rounds 1).cat = some X := by
      rw [hc]
      simp [fetchBody, statusIsSuccess]
    have ht : tryStrategies gp (rounds 1) = some X := by
      simp [tryStrategies, hfb, hfc]
    constructor
    · show downloadLoop gp rounds 1 (2 + 1) = .ok (X, 1)
      rw [downloadLoop, ht]
    · rfl

/-- C7 witness: the scenario conjunct applied to a round oracle whose
block API answers 500 and whose cat API answers 200 with body `X`. -/
theorem C7_download_strategy_order_witness :
    download_from_ipfs "http://gw/"
        (fun _ => ⟨.response 500 "oops", .response 200 "X", .reqFailed "off"⟩)
      = .ok ("X", 1) ∧ totalBackoffMs 1 = 0 :=
  (C7_download_strategy_order "http://gw/"
      ⟨.response 500 "oops", .response 200 "X", .reqFailed "off"⟩
      (fun _ => ⟨.response 500 "oops", .response 200 "X", .reqFailed "off"⟩)
      "X" "oops" 200).2.2.2.2 rfl rfl

theorem infoRefsFrame_upload (out : String) :
    infoRefsFrame "git-upload-pack" out
      = "001e# service=git-upload-pack\n0000" ++ out := rfl

theorem infoRefsFrame_receive (out : String) :
    infoRefsFrame "git-receive-pack" out
      = "001f# service=git-receive-pack\n0000" ++ out := rfl

theorem handle_info_refs_known (refs : List LedgerRef)
    (w : List (String × String)) (service out : String)
    (hw : infoRefsWriteRefs refs = .ok w)
    (hs : (service == "git-upload-pack" || service == "git-receive-pack") = true) :
    handle_info_refs refs service out = .ok (infoRefsFrame service out) := by
  rw [handle_info_refs.eq_def, hw]
  show (if (service == "git-upload-pack" || service == "git-receive-pack") = true
        then Except.ok (infoRefsFrame service out)
        else Except.error ("Unknown service: " ++ service))
      = Except.ok (infoRefsFrame service out)
  rw [if_pos hs]

/-- C8: whenever materialization succeeds — in particular for a repository
with zero refs — the advertisement for either known service is exactly the
4-hex-digit pkt-line length prefix over `# service=<S>\n` (`001e` and
`001f` respectively), the announcement line, the flush marker `0000`, and
then the subprocess's raw stdout; no empty-repository error exists on this
path. -/
theorem C8_advertisement_framing (refs : List LedgerRef) (out : String)
    (h : (infoRefsWriteRefs refs).isOk = true) :
    handle_info_refs refs "git-upload-pack" out
        = .ok ("001e# service=git-upload-pack\n0000" ++ out) ∧
    handle_info_refs refs "git-receive-pack" out
        = .ok ("001f# service=git-receive-pack\n0000" ++ out) ∧
    handle_info_refs [] "git-upload-pack" out
        = .ok ("001e# service=git-upload-pack\n0000" ++ out) ∧
    handle_info_refs [] "git-receive-pack" out
        = .ok ("001f# service=git-receive-pack\n0000" ++ out) := by
  obtain ⟨w, hw⟩ : ∃ w, infoRefsWriteRefs refs = .ok w := by
    cases hx : infoRefsWriteRefs refs with
    | error e =>
      rw [hx] at h
      simp [Except.isOk, Except.toBool] at h
    | ok w => exact ⟨w, rfl⟩
  refine ⟨?_, ?_, ?_, ?_⟩
  · rw [handle_info_refs_known refs w "git-upload-pack" out hw (by decide)]
    exact congrArg Except.ok (infoRefsFrame_upload out)
  · rw [handle_info_refs_known refs w "git-receive-pack" out hw (by decide)]
    exact congrArg Except.ok (infoRefsFrame_receive out)
  · rw [handle_info_refs_known [] [] "git-upload-pack" out rfl (by decide)]
    exact congrArg Except.ok (infoRefsFrame_upload out)
  · rw [handle_info_refs_known [] [] "git-receive-pack" out rfl (by decide)]
    exact congrArg Except.ok (infoRefsFrame_receive out)

/-- C8 witness: the framing theorem applied to the zero-ref repository. -/
theorem C8_advertisement_framing_witness :
    handle_info_refs [] "git-upload-pack" "OUT"
      = .ok ("001e# service=git-upload-pack\n0000" ++ "OUT") :=
  (C8_advertisement_framing [] "OUT" (by decide)).1

/-- C9: for a hash of length at least 2 and an absolute scratch directory,
the object download destination is `objects/hash[0..2]/hash[2..]` relative
to the scratch repository root, identically in the upload-pack and
receive-pack handlers. -/
theorem C9_loose_object_dest (temp : MPath) (hash : String)
    (habs : temp.absolute = true) (hlen : 2 ≤ hash.length) :
    uploadPackObjectDest temp hash
        = ⟨true, temp.comps ++ ["objects", ⟨hash.data.take 2⟩, ⟨hash.data.drop 2⟩]⟩ ∧
    receivePackObjectDest temp hash = uploadPackObjectDest temp hash := by
  have hnl : ¬ hash.length < 2 := by omega
  constructor
  · simp [uploadPackObjectDest, get_object_path, hnl, pathJoinC, pathJoin, habs]
  · rfl

/-- C9 witness: the destination theorem at a concrete absolute scratch
directory and a 6-character hash. -/
theorem C9_loose_object_dest_witness :
    uploadPackObjectDest ⟨true, ["tmp"]⟩ "abcdef"
        = ⟨true, ["tmp"] ++ ["objects", ⟨("abcdef").data.take 2⟩,
            ⟨("abcdef").data.drop 2⟩]⟩ ∧
    receivePackObjectDest ⟨true, ["tmp"]⟩ "abcdef"
      = uploadPackObjectDest ⟨true, ["tmp"]⟩ "abcdef" :=
  C9_loose_object_dest ⟨true, ["tmp"]⟩ "abcdef" rfl (by decide)

/-- C10: in both stateless-RPC handlers the subprocess pump is sequential,
refuting concurrent pumping — for every request body the single completed
write of the entire body to the child's stdin sits at trace index 1,
strictly before the first stdout read at index 2, so input is always fully
written before output reading begins; stderr is read only after exit and
only on failure. -/
theorem C10_pump_writes_all_input_before_reading (body : String) (exitOk : Bool) :
    writeIdx body (uploadPackPumpTrace body exitOk) = some 1 ∧
    firstReadIdx (uploadPackPumpTrace body exitOk) = some 2 ∧
    writeIdx body (receivePackPumpTrace body exitOk) = some 1 ∧
    firstReadIdx (receivePackPumpTrace body exitOk) = some 2 ∧
    uploadPackPumpTrace body true = [.spawnChild, .writeAllStdin body,
      .readAllStdout, .waitChild] ∧
    receivePackPumpTrace body false = [.spawnChild, .writeAllStdin body,
      .readAllStdout, .waitChild, .readAllStderr] := by
  have h1 : (PumpEvent.spawnChild == PumpEvent.writeAllStdin body) = false := rfl
  have h2 : (PumpEvent.writeAllStdin body == PumpEvent.writeAllStdin body) = true := by
    simp
  cases exitOk <;>
    simp [uploadPackPumpTrace, receivePackPumpTrace, writeIdx, firstReadIdx,
      List.indexOf?_cons, h1, h2]
